import Mathlib

/-!
# Verification of the `pusher` kernel-push utility

Shallow embedding of the core of `src/main.rs` and `src/tty.rs`:
the little-endian length header, the bounded two-round acknowledgment
wait, the `send_kernel` protocol engine, the idle-loop serial drain with
its break counter, the stdin forwarding path, and the byte-level
`SerialDevice::read_byte` wrapper.  Bytes are modelled as `Nat` with
explicit reductions `% 256`; the 32-bit cast of the image length is an
explicit `% 2^32`.
-/

namespace Pusher

/-- The expected acknowledgment bytes: ASCII `O` (0x4F) and `K` (0x4B),
from `vec!['O' as u8, 'K' as u8]` in `send_kernel`. -/
def okBytes : List Nat := [79, 75]

/-- The four header bytes from `send_kernel`
(`for i in 0..=3 { let s = ((kernel_size >> 8 * i) & 0xff) as u8; ... }`):
byte `i` is `(kernel_size >>> (8*i)) & 0xff`, least-significant byte first. -/
def headerBytes (kernel_size : Nat) : List Nat :=
  (List.range 4).map (fun i => (kernel_size >>> (8 * i)) % 256)

/-- Little-endian decoding of a 4-byte header back to a length, following
the spec wording "decoding those four bytes as a little-endian unsigned
32-bit integer". -/
def leDecode (bs : List Nat) : Nat :=
  bs.getD 0 0 + 256 * (bs.getD 1 0 + 256 * (bs.getD 2 0 + 256 * bs.getD 3 0))

/-- The bounded acknowledgment wait of `send_kernel` (`for _ in 0..2`):
two polling rounds; each round drains the currently available serial
bytes (`r1`, then `r2`) into the accumulator `res`; after each round the
accumulated buffer is compared with `okBytes` and the loop breaks on a
match.  Returns the final accumulated buffer. -/
def ackWait (r1 r2 : List Nat) : List Nat :=
  let res1 := [] ++ r1
  if res1 = okBytes then res1
  else
    let res2 := res1 ++ r2
    res2

/-- Outcome of one `send_kernel` call. -/
inductive SendStatus where
  /-- `assert!(std::u32::MAX > kernel_size)` failed: the process panics. -/
  | panicked : SendStatus
  /-- The accumulated ack buffer differed from `okBytes`:
  `return Err(anyhow!("Didn't receive OK"))`. -/
  | ackError : SendStatus
  /-- The transfer completed: `Ok(())`. -/
  | ok : SendStatus
deriving DecidableEq, Repr

/-- The bytes written to the serial device by one `send_kernel` call,
in order, together with its result. -/
structure SendOutcome where
  writes : List Nat
  result : SendStatus
deriving DecidableEq, Repr

/-- `send_kernel`: the image length is cast to `u32`
(`fs::metadata(kernel_path)?.len() as u32`, modelled as `% 2^32`); then
`assert!(std::u32::MAX > kernel_size)` (failure modelled as `.panicked`
with nothing written, since the assert precedes the header loop); then
the four header bytes are written; then the two-round ack wait runs; if
the accumulated buffer is not `okBytes` the call fails with `.ackError`
having written only the header; otherwise the payload bytes
`kernel_image[i]` for `i in 0..kernel_size` are written and the call
returns `.ok`. -/
def sendKernel (image : List Nat) (r1 r2 : List Nat) : SendOutcome :=
  let kernel_size := image.length % 2 ^ 32
  if ¬ (2 ^ 32 - 1 > kernel_size) then
    { writes := [], result := .panicked }
  else
    let hdr := headerBytes kernel_size
    let res := ackWait r1 r2
    if res ≠ okBytes then
      { writes := hdr, result := .ackError }
    else
      { writes := hdr ++ (List.range kernel_size).map (fun i => image.getD i 0),
        result := .ok }

end Pusher

namespace Pusher

/-- `L >>> (8*i) % 256` rewritten through division. -/
lemma headerBytes_eq_div (L : Nat) :
    headerBytes L = [L % 256, L / 256 % 256, L / 65536 % 256, L / 16777216 % 256] := by
  simp [headerBytes, List.range_succ, Nat.shiftRight_eq_div_pow]

end Pusher

/-- C3: for every length `L` with `0 ≤ L < 2^32 - 1`, the four header
bytes emitted are exactly `L &&& 0xFF`, `(L >>> 8) &&& 0xFF`,
`(L >>> 16) &&& 0xFF`, `(L >>> 24) &&& 0xFF` in that order
(least-significant byte first), and decoding them as a little-endian
unsigned 32-bit integer reproduces `L` exactly. -/
theorem header_roundtrip (L : Nat) (hL : L < 2 ^ 32 - 1) :
    Pusher.headerBytes L =
      [L % 256, (L >>> 8) % 256, (L >>> 16) % 256, (L >>> 24) % 256] ∧
    Pusher.leDecode (Pusher.headerBytes L) = L := by
  constructor
  · simp [Pusher.headerBytes, List.range_succ]
  · rw [Pusher.headerBytes_eq_div]
    simp only [Pusher.leDecode, List.getD]
    simp
    omega

/-- Witness for C3 at `L = 1024` (Scenario A's header). -/
theorem header_roundtrip_witness :
    Pusher.headerBytes 1024 = [0, 4, 0, 0] ∧ Pusher.leDecode [0, 4, 0, 0] = 1024 := by
  have h := header_roundtrip 1024 (by norm_num)
  refine ⟨?_, ?_⟩
  · rw [h.1]; decide
  · have h2 := h.2
    rw [h.1] at h2
    exact h2

namespace Pusher

/-- Indexing an entire list in order reproduces the list (the payload loop
`for i in 0..kernel_size { serial_device.write_byte(kernel_image[i as usize])?; }`
with `kernel_size` equal to the image length). -/
lemma range_map_getD (l : List Nat) :
    (List.range l.length).map (fun i => l.getD i 0) = l := by
  induction l with
  | nil => simp
  | cons x xs ih =>
    simp [List.range_succ_eq_map, List.map_map, Function.comp_def]
    simpa using ih

/-- The header is always exactly 4 bytes long. -/
lemma headerBytes_length (n : Nat) : (headerBytes n).length = 4 := by
  simp [headerBytes]

end Pusher

/-- C4: the acknowledgment wait succeeds if and only if the accumulated
buffer equals exactly `[0x4F, 0x4B]`; in particular the accumulated
buffers `[0x4F]`, `[0x4B, 0x4F]`, `[0x4F, 0x4B, 0x00]` and the empty
buffer after the timeout budget all make `send_kernel` fail. -/
theorem ack_exactness (image r1 r2 : List Nat)
    (h : image.length % 2 ^ 32 ≠ 2 ^ 32 - 1) :
    ((Pusher.sendKernel image r1 r2).result = .ok ↔
      Pusher.ackWait r1 r2 = Pusher.okBytes) ∧
    (Pusher.sendKernel [0] [79] []).result = .ackError ∧
    (Pusher.sendKernel [0] [75, 79] []).result = .ackError ∧
    (Pusher.sendKernel [0] [79, 75, 0] []).result = .ackError ∧
    (Pusher.sendKernel [0] [] []).result = .ackError := by
  have hlt : image.length % 2 ^ 32 < 2 ^ 32 := Nat.mod_lt _ (by norm_num)
  refine ⟨?_, by decide, by decide, by decide, by decide⟩
  simp only [Pusher.sendKernel]
  have hguard : 2 ^ 32 - 1 > image.length % 2 ^ 32 := by omega
  simp only [hguard, not_true_eq_false, if_false, ite_not]
  split
  · simp [*]
  · simp [Pusher.SendStatus, *]

/-- Witness for C4: an image of one byte with the ack buffer `[79, 75]`
accumulated in the first round succeeds. -/
theorem ack_exactness_witness :
    (Pusher.sendKernel [0] [79, 75] []).result = .ok :=
  (ack_exactness [0] [79, 75] [] (by decide)).1.mpr (by decide)

/-- C5: whenever the handshake fails (the accumulated ack buffer is not
`[0x4F, 0x4B]`), `send_kernel` writes no payload byte at all: everything
written is contained in the 4 header bytes, and the call does not
succeed. -/
theorem no_send_without_ack (image r1 r2 : List Nat)
    (h : Pusher.ackWait r1 r2 ≠ Pusher.okBytes) :
    (Pusher.sendKernel image r1 r2).writes.drop 4 = [] ∧
    (Pusher.sendKernel image r1 r2).result ≠ .ok := by
  simp only [Pusher.sendKernel]
  split
  · simp
  · simp only [h, if_true, ite_not, if_neg]
    constructor
    · exact List.drop_eq_nil_of_le (by rw [Pusher.headerBytes_length])
    · simp

/-- Witness for C5: with no ack bytes at all, a 3-byte image produces no
payload writes and the transfer fails. -/
theorem no_send_without_ack_witness :
    (Pusher.sendKernel [1, 2, 3] [] []).writes.drop 4 = [] ∧
    (Pusher.sendKernel [1, 2, 3] [] []).result ≠ .ok :=
  no_send_without_ack [1, 2, 3] [] [] (by decide)

/-- C7: after a successful acknowledgment, `send_kernel` writes exactly
the image bytes after the header — the unmodified file contents, in file
order — and succeeds; for a 0-byte image zero payload bytes are written
and the call still succeeds (witness below). -/
theorem payload_streams_image (image r1 r2 : List Nat)
    (hlen : image.length < 2 ^ 32 - 1)
    (hack : Pusher.ackWait r1 r2 = Pusher.okBytes) :
    Pusher.sendKernel image r1 r2 =
      { writes := Pusher.headerBytes image.length ++ image, result := .ok } := by
  have hmod : image.length % 2 ^ 32 = image.length :=
    Nat.mod_eq_of_lt (by omega)
  simp only [Pusher.sendKernel, hmod, hack]
  split
  · next h => exact (h (by omega)).elim
  · simp
    simpa using Pusher.range_map_getD image

/-- Witness for C7 (Scenario C): the empty image sends header
`[0,0,0,0]`, zero payload bytes, and still succeeds. -/
theorem payload_streams_image_witness :
    Pusher.sendKernel [] [79, 75] [] = { writes := [0, 0, 0, 0], result := .ok } := by
  have h := payload_streams_image [] [79, 75] [] (by norm_num) (by decide)
  rw [h]
  decide

/-- C2 fails on the code: an image of exactly `2^32` bytes (length
`≥ 2^32 - 1`) is NOT rejected.  `fs::metadata(...).len() as u32`
truncates the length to `0` before the assert, the assert passes, the
bogus header `[0,0,0,0]` is written, and (given a valid ack) the call
even completes successfully with zero payload bytes. -/
theorem oversize_image_truncated :
    Pusher.sendKernel (List.replicate (2 ^ 32) 0) [79, 75] [] =
      { writes := [0, 0, 0, 0], result := .ok } := by
  have hlen : (List.replicate (2 ^ 32) (0 : Nat)).length = 2 ^ 32 :=
    List.length_replicate _ _
  simp only [Pusher.sendKernel, hlen, Nat.mod_self]
  norm_num [Pusher.ackWait, Pusher.okBytes, Pusher.headerBytes, List.range_succ]

namespace Pusher

/-- State of the idle multiplexing loop of `run` while draining the
serial source: the break counter `num_breaks`, the bytes echoed so far
to the local display via `print!("{}", byte as char)`, and the number of
`send_kernel` invocations so far. -/
structure DrainState where
  numBreaks : Nat
  echoed : List Nat
  triggers : Nat
deriving DecidableEq, Repr

/-- How the drain loop proceeds: `cont` continues to the next
`read_byte`; `err` means an error propagated through the `?` operator,
so `run` returned the error and the loop (and process) terminated. -/
inductive StepOut where
  | cont (s : DrainState) : StepOut
  | err (s : DrainState) : StepOut
deriving DecidableEq, Repr

/-- The loop state carried by either outcome. -/
def stateOf : StepOut → DrainState
  | .cont s => s
  | .err s => s

/-- Whether the loop is still running (true) or exited with an error. -/
def isCont : StepOut → Bool
  | .cont _ => true
  | .err _ => false

/-- One iteration of the `SERIAL_TOKEN` drain loop in `run`, on a byte
successfully read: `if byte == 3 { num_breaks += 1; }`, then
`if num_breaks == 3 { num_breaks = 0; send_kernel(..)?; continue; }`
(the outcome of `send_kernel` is abstracted by `st`; on a non-`ok`
outcome the `?` propagates, and the `continue` means the triggering byte
is never echoed), otherwise `print!("{}", byte as char)`. -/
def drainStep (st : SendStatus) (s : DrainState) (byte : Nat) : StepOut :=
  let nb := if byte = 3 then s.numBreaks + 1 else s.numBreaks
  if nb = 3 then
    match st with
    | .ok => .cont { numBreaks := 0, echoed := s.echoed, triggers := s.triggers + 1 }
    | _ => .err { numBreaks := 0, echoed := s.echoed, triggers := s.triggers + 1 }
  else
    .cont { numBreaks := nb, echoed := s.echoed ++ [byte], triggers := s.triggers }

/-- The `SERIAL_TOKEN` drain loop of `run` over the bytes currently
available from the serial device (the inner `loop` ends when `read_byte`
yields `WouldBlock`); an error aborts the whole loop. -/
def drainList (st : SendStatus) (s : DrainState) : List Nat → StepOut
  | [] => .cont s
  | b :: bs =>
    match drainStep st s b with
    | .cont s2 => drainList st s2 bs
    | .err s2 => .err s2

/-- Number of occurrences of the in-band signal byte `0x03` in a byte
list. -/
def count3 : List Nat → Nat
  | [] => 0
  | b :: bs => (if b = 3 then 1 else 0) + count3 bs

/-- The display output the corrected C9 predicts: starting from `c`
signal bytes already counted, every drained byte is echoed except a byte
that completes a trigger (the third `0x03` since the last trigger),
which is skipped. -/
def echoExpected : Nat → List Nat → List Nat
  | _, [] => []
  | c, b :: bs =>
    let c2 := if b = 3 then c + 1 else c
    if c2 = 3 then echoExpected 0 bs
    else b :: echoExpected c2 bs

/-- `StdinDevice::read`: `let mut buffer = [0u8, 1];` declares a
TWO-element array holding the values 0 and 1 (not `[0u8; 1]`), so
`stdin().lock().read(&mut buffer)` reads up to 2 of the pending bytes
(modelled as consuming `min 2 pending.length`), and only `buffer[0]`
is returned. Returns (byte returned, bytes consumed from stdin). -/
def stdinRead (pending : List Nat) : Nat × Nat :=
  (pending.getD 0 0, min 2 pending.length)

/-- The `STDIN_TOKEN` branch of `run`: read from stdin; if the byte is
`3` skip it (`continue`); otherwise `write_byte(byte as u8)`.  Returns
(bytes written to the serial device, bytes consumed from stdin). -/
def stdinDispatch (pending : List Nat) : List Nat × Nat :=
  let byte := (stdinRead pending).1
  if byte = 3 then ([], (stdinRead pending).2)
  else ([byte], (stdinRead pending).2)

/-- The two error kinds the drain loops distinguish: `WouldBlock` versus
any terminal kind (`other` stands for `ErrorKind::Other`, carrying
"Device disconnected?"). -/
inductive IoErrorKind where
  | wouldBlock : IoErrorKind
  | other : IoErrorKind
deriving DecidableEq, Repr

/-- Outcome of the underlying `self.0.read(&mut buffer)` on the 1-byte
buffer in `SerialDevice::read_byte`: `Ok(count)` together with the byte
the buffer holds, or `Err` of some kind. -/
inductive LowRead where
  | ok (count : Nat) (b : Nat) : LowRead
  | err (k : IoErrorKind) : LowRead
deriving DecidableEq, Repr

/-- `SerialDevice::read_byte`: when the underlying read returns
`Ok(count)`, the byte is returned only if `count == 1`, otherwise
`Err(io::Error::new(ErrorKind::Other, "Device disconnected?"))`; a
`WouldBlock` error and any other error are returned unchanged. -/
def read_byte : LowRead → Except IoErrorKind Nat
  | .ok count b => if count = 1 then .ok b else .error .other
  | .err k => .error k

end Pusher

namespace Pusher

/-- With a successful `send_kernel`, a drain step always continues. -/
lemma drainStep_ok_cont (s : DrainState) (b : Nat) :
    drainStep .ok s b = .cont (stateOf (drainStep .ok s b)) := by
  simp only [drainStep]
  split <;> split <;> rfl

/-- With a successful `send_kernel`, the drain loop never exits early. -/
lemma drainList_ok_isCont (bs : List Nat) :
    ∀ s : DrainState, isCont (drainList .ok s bs) = true := by
  induction bs with
  | nil => intro s; rfl
  | cons b bs ih =>
    intro s
    simp only [drainList]
    rw [drainStep_ok_cont s b]
    exact ih _

/-- Counter and trigger count after a drain: starting below 3, the final
counter is the cumulative signal count modulo 3 and one trigger fired
for every completed group of three signal bytes. -/
lemma drainList_ok_counts (bs : List Nat) :
    ∀ s : DrainState, s.numBreaks < 3 →
      (stateOf (drainList .ok s bs)).numBreaks = (s.numBreaks + count3 bs) % 3 ∧
      (stateOf (drainList .ok s bs)).triggers
        = s.triggers + (s.numBreaks + count3 bs) / 3 := by
  induction bs with
  | nil =>
    intro s h
    constructor <;> simp [drainList, stateOf, count3] <;> omega
  | cons b bs ih =>
    intro s h
    by_cases hb : b = 3
    · subst hb
      by_cases h2 : s.numBreaks = 2
      · have hstep : drainStep .ok s 3 =
            .cont { numBreaks := 0, echoed := s.echoed, triggers := s.triggers + 1 } := by
          simp [drainStep, h2]
        simp only [drainList, hstep]
        obtain ⟨h1', h2'⟩ :=
          ih { numBreaks := 0, echoed := s.echoed, triggers := s.triggers + 1 }
            (show (0 : Nat) < 3 by omega)
        constructor
        · rw [h1']; simp [count3]; omega
        · rw [h2']; simp [count3]; omega
      · have hstep : drainStep .ok s 3 =
            .cont { numBreaks := s.numBreaks + 1, echoed := s.echoed ++ [3],
                    triggers := s.triggers } := by
          simp [drainStep, show ¬(s.numBreaks + 1 = 3) from by omega]
        simp only [drainList, hstep]
        obtain ⟨h1', h2'⟩ :=
          ih { numBreaks := s.numBreaks + 1, echoed := s.echoed ++ [3],
               triggers := s.triggers }
            (show s.numBreaks + 1 < 3 by omega)
        constructor
        · rw [h1']; simp [count3]; omega
        · rw [h2']; simp [count3]; omega
    · have hstep : drainStep .ok s b =
          .cont { numBreaks := s.numBreaks, echoed := s.echoed ++ [b],
                  triggers := s.triggers } := by
        simp [drainStep, hb, show ¬(s.numBreaks = 3) from by omega]
      simp only [drainList, hstep]
      obtain ⟨h1', h2'⟩ :=
        ih { numBreaks := s.numBreaks, echoed := s.echoed ++ [b],
             triggers := s.triggers } h
      constructor
      · rw [h1']; simp [count3, hb]
      · rw [h2']; simp [count3, hb]

/-- Per-step characterization: a trigger fires exactly on a signal byte
arriving with the counter at 2, the counter is reset to 0 exactly then,
and otherwise it only records signal bytes. -/
lemma drainStep_ok_char (s : DrainState) (h : s.numBreaks < 3) (b : Nat) :
    ((stateOf (drainStep .ok s b)).triggers = s.triggers + 1 ↔
      b = 3 ∧ s.numBreaks = 2) ∧
    (b = 3 ∧ s.numBreaks = 2 → (stateOf (drainStep .ok s b)).numBreaks = 0) ∧
    (¬(b = 3 ∧ s.numBreaks = 2) →
      (stateOf (drainStep .ok s b)).numBreaks
        = s.numBreaks + (if b = 3 then 1 else 0)) := by
  by_cases hb : b = 3
  · subst hb
    by_cases h2 : s.numBreaks = 2
    · simp [drainStep, stateOf, h2]
    · simp [drainStep, stateOf, h2, show ¬(s.numBreaks + 1 = 3) from by omega]
  · simp [drainStep, stateOf, hb, show ¬(s.numBreaks = 3) from by omega]

end Pusher

/-- C6: for every drained byte sequence, the break counter is in
`{0, 1, 2}` at every loop head (so immediately before each byte's
increment-and-check), the drain completes without error, a trigger fires
at a byte if and only if it is a `0x03` arriving with the counter at 2 —
i.e. the cumulative count of `0x03` bytes since the last trigger reaches
exactly 3, however many non-signal bytes are interleaved — the counter
is reset to 0 exactly when a trigger fires, and over the whole drain the
number of triggers is the number of completed groups of three `0x03`
bytes. -/
theorem break_counter_invariant (s : Pusher.DrainState) (bs : List Nat)
    (h : s.numBreaks < 3) :
    Pusher.isCont (Pusher.drainList .ok s bs) = true ∧
    (Pusher.stateOf (Pusher.drainList .ok s bs)).numBreaks
      = (s.numBreaks + Pusher.count3 bs) % 3 ∧
    (Pusher.stateOf (Pusher.drainList .ok s bs)).numBreaks < 3 ∧
    (Pusher.stateOf (Pusher.drainList .ok s bs)).triggers
      = s.triggers + (s.numBreaks + Pusher.count3 bs) / 3 ∧
    ∀ b : Nat,
      ((Pusher.stateOf (Pusher.drainStep .ok s b)).triggers = s.triggers + 1 ↔
        b = 3 ∧ s.numBreaks = 2) ∧
      (b = 3 ∧ s.numBreaks = 2 →
        (Pusher.stateOf (Pusher.drainStep .ok s b)).numBreaks = 0) ∧
      (¬(b = 3 ∧ s.numBreaks = 2) →
        (Pusher.stateOf (Pusher.drainStep .ok s b)).numBreaks
          = s.numBreaks + (if b = 3 then 1 else 0)) := by
  obtain ⟨h1, h2⟩ := Pusher.drainList_ok_counts bs s h
  refine ⟨Pusher.drainList_ok_isCont bs s, h1, ?_, h2, fun b => Pusher.drainStep_ok_char s h b⟩
  rw [h1]
  omega

/-- Witness for C6: from a fresh counter, the interleaved drain
`[5, 3, 3, 7, 3]` fires exactly one trigger and leaves the counter 0. -/
theorem break_counter_invariant_witness :
    (Pusher.stateOf (Pusher.drainList .ok ⟨0, [], 0⟩ [5, 3, 3, 7, 3])).triggers = 1 ∧
    (Pusher.stateOf (Pusher.drainList .ok ⟨0, [], 0⟩ [5, 3, 3, 7, 3])).numBreaks = 0 := by
  have h := break_counter_invariant ⟨0, [], 0⟩ [5, 3, 3, 7, 3] (by decide)
  refine ⟨?_, ?_⟩
  · rw [h.2.2.2.1]; decide
  · rw [h.2.1]; decide

/-- C9 as stated is false on the code: in the drain `[97, 3, 3, 3]` the
third `0x03` completes the trigger and the branch ends with `continue`,
so that byte is never echoed — only `[97, 3, 3]` reach the display. -/
theorem serial_echo_cex :
    (Pusher.stateOf (Pusher.drainList .ok ⟨0, [], 0⟩ [97, 3, 3, 3])).echoed
      = [97, 3, 3] ∧
    (Pusher.stateOf (Pusher.drainList .ok ⟨0, [], 0⟩ [97, 3, 3, 3])).echoed
      ≠ [97, 3, 3, 3] := by
  decide

/-- C9 (amended): during the idle-loop drain every byte read from the
serial source — signal bytes `0x03` included — is written to the local
display as it arrives, EXCEPT a byte that completes a trigger (the third
`0x03` since the last trigger), which is consumed by the trigger's
`continue` and never echoed. -/
theorem drain_echoes_all_but_trigger (bs : List Nat) :
    ∀ s : Pusher.DrainState,
      (Pusher.stateOf (Pusher.drainList .ok s bs)).echoed
        = s.echoed ++ Pusher.echoExpected s.numBreaks bs := by
  induction bs with
  | nil => intro s; simp [Pusher.drainList, Pusher.stateOf, Pusher.echoExpected]
  | cons b bs ih =>
    intro s
    by_cases h2 : (if b = 3 then s.numBreaks + 1 else s.numBreaks) = 3
    · have hstep : Pusher.drainStep .ok s b =
          .cont { numBreaks := 0, echoed := s.echoed, triggers := s.triggers + 1 } := by
        simp only [Pusher.drainStep]
        rw [if_pos h2]
      simp only [Pusher.drainList, hstep]
      rw [ih]
      simp [Pusher.echoExpected, h2]
    · have hstep : Pusher.drainStep .ok s b =
          .cont { numBreaks := if b = 3 then s.numBreaks + 1 else s.numBreaks,
                  echoed := s.echoed ++ [b], triggers := s.triggers } := by
        simp only [Pusher.drainStep]
        rw [if_neg h2]
      simp only [Pusher.drainList, hstep]
      rw [ih]
      simp [Pusher.echoExpected, h2]

/-- C1 as stated is false on the code: with a 5-byte image and no ack
bytes ever arriving, the third `0x03` triggers `send_kernel`, which
fails, and the `?` on `send_kernel(...)` makes `run` return the error:
the drain does NOT continue back to idle multiplexing. -/
theorem handshake_failure_cex :
    Pusher.isCont (Pusher.drainList
      (Pusher.sendKernel (List.replicate 5 0) [] []).result ⟨0, [], 0⟩ [3, 3, 3])
      = false := by
  decide

/-- C1 (amended): if the handshake fails, the `send_kernel` error
propagates through the `?` operator out of the multiplexing loop of
`run` (and from `main`), so the process exits instead of returning to
idle: whenever a trigger fires during a drain and the transfer outcome
is not `ok`, the loop terminates with the error. -/
theorem handshake_failure_propagates (st : Pusher.SendStatus) (hst : st ≠ .ok)
    (s : Pusher.DrainState) (bs : List Nat) (h : s.numBreaks < 3)
    (htrig : 3 ≤ s.numBreaks + Pusher.count3 bs) :
    Pusher.isCont (Pusher.drainList st s bs) = false := by
  induction bs generalizing s with
  | nil =>
    simp [Pusher.count3] at htrig
    omega
  | cons b bs ih =>
    by_cases h2 : (if b = 3 then s.numBreaks + 1 else s.numBreaks) = 3
    · have hstep : Pusher.drainStep st s b =
          .err { numBreaks := 0, echoed := s.echoed, triggers := s.triggers + 1 } := by
        cases st
        · simp only [Pusher.drainStep]; rw [if_pos h2]
        · simp only [Pusher.drainStep]; rw [if_pos h2]
        · exact absurd rfl hst
      simp only [Pusher.drainList, hstep]
      rfl
    · have hstep : Pusher.drainStep st s b =
          .cont { numBreaks := if b = 3 then s.numBreaks + 1 else s.numBreaks,
                  echoed := s.echoed ++ [b], triggers := s.triggers } := by
        simp only [Pusher.drainStep]
        rw [if_neg h2]
      simp only [Pusher.drainList, hstep]
      apply ih
      · by_cases hb : b = 3 <;> simp [hb] at h2 ⊢ <;> omega
      · by_cases hb : b = 3 <;> simp [Pusher.count3, hb] at htrig ⊢ <;> omega

/-- Witness for the amended C1: a failed handshake outcome and three
signal bytes make the loop exit with the error. -/
theorem handshake_failure_propagates_witness :
    Pusher.isCont (Pusher.drainList .ackError ⟨0, [], 0⟩ [3, 3, 3]) = false :=
  handshake_failure_propagates .ackError (by decide) ⟨0, [], 0⟩ [3, 3, 3]
    (by decide) (by decide)

/-- C8 fails on the code: with the two bytes `0x61, 0x62` pending on
stdin, `StdinDevice::read` fills its 2-element buffer (`[0u8, 1]` is an
array of the two values 0 and 1, not `[0u8; 1]`), consuming BOTH bytes
and discarding the second; the forwarding itself writes the first byte
unchanged, but the number of bytes read from the interactive source is
2, not 1. -/
theorem stdin_read_overconsumes :
    Pusher.stdinDispatch [97, 98] = ([97], 2) ∧
    (Pusher.stdinDispatch [97, 98]).2 ≠ 1 := by
  decide

/-- C10: `SerialDevice::read_byte` returns a byte successfully exactly
when the underlying read yielded one byte; a 0-byte read (end-of-file /
device disconnected) produces a terminal error of kind `Other`, which is
not `WouldBlock`, and underlying errors are passed through unchanged —
so the caller's drain loop treats a disconnected device as fatal rather
than as no-data-available. -/
theorem read_byte_exactness (count b : Nat) :
    (Pusher.read_byte (.ok count b) = .ok b ↔ count = 1) ∧
    Pusher.read_byte (.ok 0 b) = .error .other ∧
    Pusher.IoErrorKind.other ≠ Pusher.IoErrorKind.wouldBlock ∧
    (∀ k, Pusher.read_byte (.err k) = .error k) := by
  refine ⟨?_, by simp [Pusher.read_byte], by decide, fun k => rfl⟩
  by_cases h : count = 1 <;> simp [Pusher.read_byte, h]
